import Mathlib

/-!
Verification of the fallback-selection policy and the IBKR data-range
helpers of the TradingAgents repository.

The embedding translates, from the source:
* `DataSourceManager.get_data_in_range`
  (`tradingagents/dataflows/data_source_manager.py`): the primary/secondary
  fallback policy.  Provider fetches are modelled as oracles
  `Request → FetchOutcome α`; an execution returns its outcome together with
  a trace of which provider was called with which request.
* `get_ibkr_data_in_range` and `IBKRConnection.get_news_articles`
  (`tradingagents/dataflows/ibkr_utils.py`): the per-kind dispatch, date
  parsing, grouping and range filtering.  External IB calls are oracles;
  datetimes are integers counted in days, so `timedelta(days=n)` is `- n`.
* `cleanup_ibkr_connection` / `cleanup_data_sources`: the module-level
  globals become an explicit `GlobalState`.
-/

namespace TradingAgents

/-- Identity of a Python exception object (we only need to distinguish and
compare exceptions, never inspect them). -/
abbrev Exc := Nat

/-- A provider result: a Python dict from date string to payload, modelled
as an association list.  Python truthiness of a dict is non-emptiness. -/
abbrev Result (α : Type) := List (String × α)

/-- Outcome of one provider fetch: a returned dict or a raised exception. -/
inductive FetchOutcome (α : Type) where
  | ok (data : Result α)
  | err (e : Exc)
deriving DecidableEq

/-- A request to `DataSourceManager.get_data_in_range`: ticker, date range
and data kind (extra kwargs are opaque and folded into the oracles). -/
structure Request where
  ticker : String
  start_date : String
  end_date : String
  data_type : String
deriving DecidableEq

/-- Outcome of a whole `get_data_in_range` call: a returned dict or a
propagated exception. -/
inductive RunResult (α : Type) where
  | ret (data : Result α)
  | raised (e : Exc)
deriving DecidableEq

/-- Trace of provider invocations made during one call, per concrete source
(`ibkr` / `finnhub`), in order, each with the request it received. -/
structure CallTrace where
  ibkrCalls : List Request
  finnhubCalls : List Request
deriving DecidableEq

/-- Python truthiness of the `primary_data` variable, which is `None` until
a fetch returned, then the returned dict. -/
def optTruthy {α : Type} (od : Option (Result α)) : Bool :=
  match od with
  | some d => !d.isEmpty
  | none => false

/-- Final step of `get_data_in_range` (lines 90–93): re-raise the recorded
primary error if there is one, else return the empty dict. -/
def finishUp {α : Type} (primary_error : Option Exc) (t : CallTrace) :
    RunResult α × CallTrace :=
  match primary_error with
  | some e => (.raised e, t)
  | none => (.ret [], t)

/-- The fallback section of `get_data_in_range` (lines 69–93): if fallback
is enabled and the primary produced nothing (or raised), call the other
source; return its dict if truthy, swallow its exception otherwise, then
fall through to `finishUp`. -/
def tryFallback {α : Type} (primary_source : String) (enable_fallback : Bool)
    (ibkrFetch finnhubFetch : Request → FetchOutcome α) (req : Request)
    (primary_data : Option (Result α)) (primary_error : Option Exc)
    (t : CallTrace) : RunResult α × CallTrace :=
  if enable_fallback = true ∧ (optTruthy primary_data = false ∨ primary_error.isSome = true) then
    let fallback_source := if primary_source = "ibkr" then "finnhub" else "ibkr"
    let fbOutcome :=
      if fallback_source = "ibkr" then ibkrFetch req else finnhubFetch req
    let t2 :=
      if fallback_source = "ibkr" then
        { t with ibkrCalls := t.ibkrCalls ++ [req] }
      else
        { t with finnhubCalls := t.finnhubCalls ++ [req] }
    match fbOutcome with
    | .ok fd => if fd.isEmpty = false then (.ret fd, t2) else finishUp primary_error t2
    | .err _ => finishUp primary_error t2
  else
    finishUp primary_error t

/-- `DataSourceManager.get_data_in_range` (lines 23–93).  `primary_source`
is the configured `data_source` string, dispatching to the `ibkr` oracle
exactly when it equals `"ibkr"` and to `finnhub` otherwise; a truthy primary
dict is returned at once, otherwise the fallback section runs. -/
def get_data_in_range {α : Type} (primary_source : String) (enable_fallback : Bool)
    (ibkrFetch finnhubFetch : Request → FetchOutcome α) (req : Request) :
    RunResult α × CallTrace :=
  let primOutcome :=
    if primary_source = "ibkr" then ibkrFetch req else finnhubFetch req
  let t1 : CallTrace :=
    if primary_source = "ibkr" then ⟨[req], []⟩ else ⟨[], [req]⟩
  match primOutcome with
  | .ok d =>
      if d.isEmpty = false then (.ret d, t1)
      else tryFallback primary_source enable_fallback ibkrFetch finnhubFetch req (some d) none t1
  | .err e =>
      tryFallback primary_source enable_fallback ibkrFetch finnhubFetch req none (some e) t1

/-- The fetch the configuration designates as primary. -/
def primaryFetch {α : Type} (primary_source : String)
    (ibkrFetch finnhubFetch : Request → FetchOutcome α) : Request → FetchOutcome α :=
  if primary_source = "ibkr" then ibkrFetch else finnhubFetch

/-- The fetch playing secondary (the source the fallback section targets). -/
def secondaryFetch {α : Type} (primary_source : String)
    (ibkrFetch finnhubFetch : Request → FetchOutcome α) : Request → FetchOutcome α :=
  if primary_source = "ibkr" then finnhubFetch else ibkrFetch

/-- Calls the primary source received, as recorded in a trace. -/
def primaryCalls (primary_source : String) (t : CallTrace) : List Request :=
  if primary_source = "ibkr" then t.ibkrCalls else t.finnhubCalls

/-- Calls the secondary source received, as recorded in a trace. -/
def secondaryCalls (primary_source : String) (t : CallTrace) : List Request :=
  if primary_source = "ibkr" then t.finnhubCalls else t.ibkrCalls

end TradingAgents


namespace TradingAgents

/-- Reference description of the selection policy on the two fetch
outcomes: the run result together with whether the secondary was invoked.
Used only as a proof device, via `get_data_in_range_eq_spec`. -/
def selectorSpec {α : Type} (enable_fallback : Bool)
    (p s : FetchOutcome α) : RunResult α × Bool :=
  match p with
  | .ok d =>
      if d.isEmpty = false then (.ret d, false)
      else if enable_fallback then
        match s with
        | .ok sd => if sd.isEmpty = false then (.ret sd, true) else (.ret [], true)
        | .err _ => (.ret [], true)
      else (.ret [], false)
  | .err e =>
      if enable_fallback then
        match s with
        | .ok sd => if sd.isEmpty = false then (.ret sd, true) else (.raised e, true)
        | .err _ => (.raised e, true)
      else (.raised e, false)

/-- The trace a run leaves: the primary called once, the secondary once if
it was invoked. -/
def traceOf (primary_source : String) (req : Request) (secInvoked : Bool) :
    CallTrace :=
  if primary_source = "ibkr" then ⟨[req], if secInvoked then [req] else []⟩
  else ⟨if secInvoked then [req] else [], [req]⟩

theorem secondaryCalls_traceOf (ps : String) (req : Request) (b : Bool) :
    secondaryCalls ps (traceOf ps req b) = if b then [req] else [] := by
  by_cases hps : ps = "ibkr" <;> simp [secondaryCalls, traceOf, hps]

theorem primaryCalls_traceOf (ps : String) (req : Request) (b : Bool) :
    primaryCalls ps (traceOf ps req b) = [req] := by
  by_cases hps : ps = "ibkr" <;> simp [primaryCalls, traceOf, hps]

/-- The translated `get_data_in_range` coincides with the reference policy
applied to the primary and secondary outcomes, with the induced trace. -/
theorem get_data_in_range_eq_spec {α : Type} (ps : String) (fb : Bool)
    (ib fh : Request → FetchOutcome α) (req : Request) :
    get_data_in_range ps fb ib fh req =
      ((selectorSpec fb (primaryFetch ps ib fh req) (secondaryFetch ps ib fh req)).1,
       traceOf ps req
         (selectorSpec fb (primaryFetch ps ib fh req) (secondaryFetch ps ib fh req)).2) := by
  by_cases hps : ps = "ibkr"
  · subst hps
    simp only [primaryFetch, secondaryFetch, reduceIte]
    cases hprim : ib req with
    | ok d =>
      cases hd : d.isEmpty
      · simp [get_data_in_range, tryFallback, finishUp, optTruthy, selectorSpec, traceOf,
          hprim, hd]
      · cases fb
        · simp [get_data_in_range, tryFallback, finishUp, optTruthy, selectorSpec, traceOf,
            hprim, hd]
        · cases hsec : fh req with
          | ok sd =>
            cases hsd : sd.isEmpty <;>
              simp [get_data_in_range, tryFallback, finishUp, optTruthy, selectorSpec,
                traceOf, hprim, hd, hsec, hsd]
          | err e2 =>
            simp [get_data_in_range, tryFallback, finishUp, optTruthy, selectorSpec,
              traceOf, hprim, hd, hsec]
    | err e =>
      cases fb
      · simp [get_data_in_range, tryFallback, finishUp, optTruthy, selectorSpec, traceOf,
          hprim]
      · cases hsec : fh req with
        | ok sd =>
          cases hsd : sd.isEmpty <;>
            simp [get_data_in_range, tryFallback, finishUp, optTruthy, selectorSpec,
              traceOf, hprim, hsec, hsd]
        | err e2 =>
          simp [get_data_in_range, tryFallback, finishUp, optTruthy, selectorSpec,
            traceOf, hprim, hsec]
  · simp only [primaryFetch, secondaryFetch, hps, reduceIte]
    cases hprim : fh req with
    | ok d =>
      cases hd : d.isEmpty
      · simp [get_data_in_range, tryFallback, finishUp, optTruthy, selectorSpec, traceOf,
          hps, hprim, hd]
      · cases fb
        · simp [get_data_in_range, tryFallback, finishUp, optTruthy, selectorSpec, traceOf,
            hps, hprim, hd]
        · cases hsec : ib req with
          | ok sd =>
            cases hsd : sd.isEmpty <;>
              simp [get_data_in_range, tryFallback, finishUp, optTruthy, selectorSpec,
                traceOf, hps, hprim, hd, hsec, hsd]
          | err e2 =>
            simp [get_data_in_range, tryFallback, finishUp, optTruthy, selectorSpec,
              traceOf, hps, hprim, hd, hsec]
    | err e =>
      cases fb
      · simp [get_data_in_range, tryFallback, finishUp, optTruthy, selectorSpec, traceOf,
          hps, hprim]
      · cases hsec : ib req with
        | ok sd =>
          cases hsd : sd.isEmpty <;>
            simp [get_data_in_range, tryFallback, finishUp, optTruthy, selectorSpec,
              traceOf, hps, hprim, hsec, hsd]
        | err e2 =>
          simp [get_data_in_range, tryFallback, finishUp, optTruthy, selectorSpec,
            traceOf, hps, hprim, hsec]

end TradingAgents

namespace TradingAgents

/-- Concrete oracles and request used by the witnesses below. -/
def oracleOkData : Request → FetchOutcome Nat := fun _ => .ok [("2024-01-02", 7)]

def oracleOkOther : Request → FetchOutcome Nat := fun _ => .ok [("2024-01-03", 2)]

def oracleOkEmpty : Request → FetchOutcome Nat := fun _ => .ok []

def oracleErr (n : Exc) : Request → FetchOutcome Nat := fun _ => .err n

def reqAAPL : Request := ⟨"AAPL", "2024-01-01", "2024-01-05", "news"⟩

/-- C1: a non-empty primary result is returned unmodified and the secondary
is never invoked, whatever `enable_fallback` is. -/
theorem primary_success_returns_unmodified {α : Type} (ps : String) (fb : Bool)
    (ib fh : Request → FetchOutcome α) (req : Request) (d : Result α)
    (hfetch : primaryFetch ps ib fh req = .ok d) (hne : d ≠ []) :
    (get_data_in_range ps fb ib fh req).1 = .ret d ∧
    secondaryCalls ps (get_data_in_range ps fb ib fh req).2 = [] := by
  have hde : d.isEmpty = false := by
    cases d with
    | nil => exact absurd rfl hne
    | cons a l => rfl
  rw [get_data_in_range_eq_spec]
  simp [selectorSpec, hfetch, hde, secondaryCalls_traceOf]

theorem primary_success_returns_unmodified_witness :
    primaryFetch "ibkr" oracleOkData oracleOkEmpty reqAAPL = .ok [("2024-01-02", 7)] ∧
    [("2024-01-02", (7 : Nat))] ≠ [] ∧
    ((get_data_in_range "ibkr" true oracleOkData oracleOkEmpty reqAAPL).1 =
        .ret [("2024-01-02", 7)] ∧
      secondaryCalls "ibkr" (get_data_in_range "ibkr" true oracleOkData oracleOkEmpty
        reqAAPL).2 = []) :=
  ⟨rfl, by decide,
    primary_success_returns_unmodified "ibkr" true _ _ _ [("2024-01-02", 7)] rfl (by decide)⟩

/-- C2: when the primary raises and the secondary (run because fallback is
enabled) also raises, the primary's exception — the very value it raised —
propagates to the caller. -/
theorem both_raise_primary_error_propagates {α : Type} (ps : String)
    (ib fh : Request → FetchOutcome α) (req : Request) (e e' : Exc)
    (hp : primaryFetch ps ib fh req = .err e)
    (hs : secondaryFetch ps ib fh req = .err e') :
    (get_data_in_range ps true ib fh req).1 = .raised e := by
  rw [get_data_in_range_eq_spec]
  simp [selectorSpec, hp, hs]

theorem both_raise_primary_error_propagates_witness :
    primaryFetch "finnhub" (oracleErr 5) (oracleErr 3) reqAAPL = .err 3 ∧
    secondaryFetch "finnhub" (oracleErr 5) (oracleErr 3) reqAAPL = .err 5 ∧
    (get_data_in_range "finnhub" true (oracleErr 5) (oracleErr 3) reqAAPL).1 = .raised 3 :=
  ⟨rfl, rfl, both_raise_primary_error_propagates "finnhub" _ _ _ 3 5 rfl rfl⟩

/-- C3: a primary that returns an empty dict without raising triggers the
fallback (the secondary is invoked with the request itself), and when the
secondary also comes back empty or raises, the call returns the empty dict
and raises nothing. -/
theorem empty_primary_falls_back_then_empty {α : Type} (ps : String)
    (ib fh : Request → FetchOutcome α) (req : Request)
    (hp : primaryFetch ps ib fh req = .ok []) :
    secondaryCalls ps (get_data_in_range ps true ib fh req).2 = [req] ∧
    ((secondaryFetch ps ib fh req = .ok [] ∨ ∃ e', secondaryFetch ps ib fh req = .err e') →
      (get_data_in_range ps true ib fh req).1 = .ret []) := by
  rw [get_data_in_range_eq_spec]
  constructor
  · rw [secondaryCalls_traceOf]
    cases hsec : secondaryFetch ps ib fh req with
    | ok sd => cases hsd : sd.isEmpty <;> simp [selectorSpec, hp, hsec, hsd]
    | err e' => simp [selectorSpec, hp, hsec]
  · rintro (hsec | ⟨e', hsec⟩) <;> simp [selectorSpec, hp, hsec]

theorem empty_primary_falls_back_then_empty_witness :
    primaryFetch "ibkr" oracleOkEmpty (oracleErr 3) reqAAPL = .ok [] ∧
    (secondaryCalls "ibkr" (get_data_in_range "ibkr" true oracleOkEmpty (oracleErr 3)
        reqAAPL).2 = [reqAAPL] ∧
      (get_data_in_range "ibkr" true oracleOkEmpty (oracleErr 3) reqAAPL).1 = .ret []) :=
  ⟨rfl,
    (empty_primary_falls_back_then_empty "ibkr" oracleOkEmpty (oracleErr 3) reqAAPL rfl).1,
    (empty_primary_falls_back_then_empty "ibkr" oracleOkEmpty (oracleErr 3) reqAAPL rfl).2 (Or.inr ⟨3, rfl⟩)⟩

/-- C4: when the primary raises and fallback is enabled, the secondary is
invoked exactly once — with the request's ticker, start and end dates — and
a non-empty secondary result is returned unmodified. -/
theorem primary_raises_secondary_invoked_once {α : Type} (ps : String)
    (ib fh : Request → FetchOutcome α) (req : Request) (e : Exc)
    (hp : primaryFetch ps ib fh req = .err e) :
    secondaryCalls ps (get_data_in_range ps true ib fh req).2 = [req] ∧
    (∀ d : Result α, secondaryFetch ps ib fh req = .ok d → d ≠ [] →
      (get_data_in_range ps true ib fh req).1 = .ret d) := by
  rw [get_data_in_range_eq_spec]
  constructor
  · rw [secondaryCalls_traceOf]
    cases hsec : secondaryFetch ps ib fh req with
    | ok sd => cases hsd : sd.isEmpty <;> simp [selectorSpec, hp, hsec, hsd]
    | err e' => simp [selectorSpec, hp, hsec]
  · intro d hsec hne
    have hde : d.isEmpty = false := by
      cases d with
      | nil => exact absurd rfl hne
      | cons a l => rfl
    simp [selectorSpec, hp, hsec, hde]

theorem primary_raises_secondary_invoked_once_witness :
    primaryFetch "ibkr" (oracleErr 9) oracleOkOther reqAAPL = .err 9 ∧
    (secondaryCalls "ibkr" (get_data_in_range "ibkr" true (oracleErr 9) oracleOkOther
        reqAAPL).2 = [reqAAPL] ∧
      (get_data_in_range "ibkr" true (oracleErr 9) oracleOkOther reqAAPL).1 =
        .ret [("2024-01-03", 2)]) :=
  ⟨rfl,
    (primary_raises_secondary_invoked_once "ibkr" (oracleErr 9) oracleOkOther reqAAPL 9 rfl).1,
    (primary_raises_secondary_invoked_once "ibkr" (oracleErr 9) oracleOkOther reqAAPL 9 rfl).2
      [("2024-01-03", 2)] rfl (by decide)⟩

/-- C5: with fallback disabled, a raising primary has its exception
re-raised and the secondary is never invoked. -/
theorem fallback_disabled_reraises_primary {α : Type} (ps : String)
    (ib fh : Request → FetchOutcome α) (req : Request) (e : Exc)
    (hp : primaryFetch ps ib fh req = .err e) :
    (get_data_in_range ps false ib fh req).1 = .raised e ∧
    secondaryCalls ps (get_data_in_range ps false ib fh req).2 = [] := by
  rw [get_data_in_range_eq_spec]
  rw [secondaryCalls_traceOf]
  simp [selectorSpec, hp]

theorem fallback_disabled_reraises_primary_witness :
    primaryFetch "finnhub" oracleOkOther (oracleErr 4) reqAAPL = .err 4 ∧
    ((get_data_in_range "finnhub" false oracleOkOther (oracleErr 4) reqAAPL).1 =
        .raised 4 ∧
      secondaryCalls "finnhub" (get_data_in_range "finnhub" false oracleOkOther
        (oracleErr 4) reqAAPL).2 = []) :=
  ⟨rfl, fallback_disabled_reraises_primary "finnhub" _ _ reqAAPL 4 rfl⟩

/-- C6: in every execution, the primary source is fetched exactly once (with
the request itself) and the secondary at most once: no retry within a
request. -/
theorem primary_once_secondary_at_most_once {α : Type} (ps : String) (fb : Bool)
    (ib fh : Request → FetchOutcome α) (req : Request) :
    primaryCalls ps (get_data_in_range ps fb ib fh req).2 = [req] ∧
    (secondaryCalls ps (get_data_in_range ps fb ib fh req).2).length ≤ 1 := by
  rw [get_data_in_range_eq_spec]
  rw [primaryCalls_traceOf, secondaryCalls_traceOf]
  refine ⟨rfl, ?_⟩
  split <;> simp

end TradingAgents

namespace TradingAgents

/-- Value of a decimal digit character. -/
def digitVal (c : Char) : Nat := c.toNat - 48

/-- Gregorian leap-year test, as Python's `datetime` uses. -/
def isLeap (y : Nat) : Bool := (y % 4 == 0 && y % 100 != 0) || y % 400 == 0

/-- Length of month `m` of year `y`. -/
def daysInMonth (y m : Nat) : Nat :=
  if m = 2 then (if isLeap y then 29 else 28)
  else if m = 4 ∨ m = 6 ∨ m = 9 ∨ m = 11 then 30 else 31

/-- `datetime.strptime(s, "%Y-%m-%d")`: a four-digit year (Python requires
year ≥ 1), two-digit month and day, dashes in between, month and day valid;
`none` models the `ValueError` strptime raises otherwise. -/
def parseDate (s : String) : Option (Nat × Nat × Nat) :=
  match s.toList with
  | [y1, y2, y3, y4, c1, m1, m2, c2, d1, d2] =>
    if c1 = '-' ∧ c2 = '-' ∧ [y1, y2, y3, y4, m1, m2, d1, d2].all Char.isDigit then
      let y := 1000 * digitVal y1 + 100 * digitVal y2 + 10 * digitVal y3 + digitVal y4
      let m := 10 * digitVal m1 + digitVal m2
      let d := 10 * digitVal d1 + digitVal d2
      if 1 ≤ y ∧ 1 ≤ m ∧ m ≤ 12 ∧ 1 ≤ d ∧ d ≤ daysInMonth y m then some (y, m, d)
      else none
    else none
  | _ => none

/-- Day number of a calendar date, so that differences of day numbers are
exactly `(datetime(b) - datetime(a)).days` for midnight datetimes. -/
def dateOrdinal : Nat × Nat × Nat → Nat
  | (y, m, d) =>
    let y' := if m ≤ 2 then y - 1 else y
    let m' := if m ≤ 2 then m + 12 else m
    365 * y' + y' / 4 - y' / 100 + y' / 400 + 153 * (m' + 1) / 5 + d

/-- Lexicographic order on code points, `charListLe a.data b.data`: this is
exactly Python's `<=` on strings, and unlike Lean's built-in `String` order
it evaluates inside the kernel. -/
def charListLe : List Char → List Char → Bool
  | [], _ => true
  | _ :: _, [] => false
  | a :: as, b :: bs =>
    if a.toNat < b.toNat then true
    else if b.toNat < a.toNat then false
    else charListLe as bs

/-- Python's `<=` on strings. -/
def pyStrLe (a b : String) : Bool := charListLe a.data b.data

/-- One article as `get_news_articles` hands it back: `dateStr` is the
`article['time'].strftime("%Y-%m-%d")` value, the rest of the fields are
opaque payload.  Also reused for one row of the historical DataFrame, whose
`date` column is already normalised to a `"%Y-%m-%d"` string. -/
structure Article (α : Type) where
  dateStr : String
  payload : α
deriving DecidableEq

/-- Arguments of one `reqHistoricalNewsAsync` call.  Datetimes are counted
in days, so `datetime.now() - timedelta(days=n)` is `now - n`. -/
structure NewsReq where
  conId : Nat
  providerCode : String
  startDT : Int
  endDT : Int
  totalResults : Nat
deriving DecidableEq

/-- Oracles for the external IB client calls made by `IBKRConnection`.
Each models one awaited client call: either a value or a raised
exception. -/
structure IBKROps (α : Type) where
  connected : Bool
  connectResult : Except Exc Unit
  contractDetails : Except Exc (List Nat)
  newsProviders : Except Exc (List String)
  historicalNews : NewsReq → Except Exc (List (Article α))
  historicalData : Except Exc (List (Article α))
  fundamentals : Except Exc (Result α)
  companyInfo : Except Exc (Result α)
  realTime : Except Exc (Result α)

/-- `IBKRConnection.get_news_articles` (ibkr_utils lines 84–128): connect if
needed (propagating failure), bail out with `[]` on missing contract
details, then inside the inner `try` fetch providers and — when one exists —
request historical news for the window `now - days_back .. now` with
`totalResults=100`; any inner failure is swallowed.  Returns the outcome and
the list of `reqHistoricalNewsAsync` calls that were issued. -/
def get_news_articles {α : Type} (ops : IBKROps α) (now : Int) (days_back : Int) :
    Except Exc (List (Article α)) × List NewsReq :=
  match (if ops.connected then Except.ok () else ops.connectResult) with
  | .error e => (.error e, [])
  | .ok _ =>
    match ops.contractDetails with
    | .error e => (.error e, [])
    | .ok [] => (.ok [], [])
    | .ok (cid :: _) =>
      match ops.newsProviders with
      | .error _ => (.ok [], [])
      | .ok [] => (.ok [], [])
      | .ok (p :: _) =>
        match ops.historicalNews ⟨cid, p, now - days_back, now, 100⟩ with
        | .error _ => (.ok [], [⟨cid, p, now - days_back, now, 100⟩])
        | .ok arts => (.ok arts, [⟨cid, p, now - days_back, now, 100⟩])

/-- `grouped_data[date_str].append(article)` with dict-key creation on
first sight: append to the existing group or add a new one at the end. -/
def addToGroup {α : Type} (acc : List (String × List (Article α))) (k : String)
    (a : Article α) : List (String × List (Article α)) :=
  if acc.any (fun p => p.1 == k) then
    acc.map (fun p => if p.1 == k then (p.1, p.2 ++ [a]) else p)
  else acc ++ [(k, [a])]

/-- The news grouping loop (ibkr_utils lines 263–269): keep exactly the
articles whose date string lies in `[sd, ed]`, grouped by date string. -/
def groupNews {α : Type} (sd ed : String) (arts : List (Article α)) :
    List (String × List (Article α)) :=
  arts.foldl
    (fun acc a =>
      if pyStrLe sd a.dateStr && pyStrLe a.dateStr ed then addToGroup acc a.dateStr a else acc)
    []

/-- `grouped_data[date_str] = row.to_dict()`: overwrite the entry or add a
new one at the end. -/
def histUpsert {α : Type} (acc : List (String × Article α)) (k : String)
    (r : Article α) : List (String × Article α) :=
  if acc.any (fun p => p.1 == k) then
    acc.map (fun p => if p.1 == k then (p.1, r) else p)
  else acc ++ [(k, r)]

/-- The historical branch's filter-and-group (ibkr_utils lines 282–292):
rows with date in `[sd, ed]`, keyed by date, later rows overwriting. -/
def groupHist {α : Type} (sd ed : String) (rows : List (Article α)) :
    List (String × Article α) :=
  (rows.filter (fun r => pyStrLe sd r.dateStr && pyStrLe r.dateStr ed)).foldl
    (fun acc r => histUpsert acc r.dateStr r) []

/-- Values of the dict returned by `get_ibkr_data_in_range`: per-branch they
are article lists, historical rows, or an opaque provider dict. -/
inductive IBVal (α : Type) where
  | news (arts : List (Article α))
  | row (r : Article α)
  | dict (d : Result α)
deriving DecidableEq

/-- The dict returned by `get_ibkr_data_in_range`. -/
abbrev IBResult (α : Type) := List (String × IBVal α)

/-- One execution of `get_ibkr_data_in_range`: outcome plus the trace of
`reqHistoricalNewsAsync` calls issued on the way. -/
structure IBRun (α : Type) where
  result : Except Exc (IBResult α)
  newsCalls : List NewsReq

/-- The `ValueError` that `datetime.strptime` raises on a malformed date. -/
def strptimeValueError : Exc := 0

set_option linter.unusedVariables false in
/-- `get_ibkr_data_in_range` (ibkr_utils lines 231–314): dispatch on
`data_type`.  News: `days_back = (end - start).days`, fetch via
`get_news_articles`, group and filter to the requested range.  Historical:
fetch rows, and when non-empty filter to the range and group by date.
Fundamentals / company info / real time: wrap a truthy provider dict as
`{end_date: value}`, else return `{}`.  Anything else: log a warning and
return `{}`.  The surrounding `try` logs and re-raises, so exceptions pass
through unchanged.  (`ticker` only reaches the oracles, hence is unused in
the embedding.) -/
def get_ibkr_data_in_range {α : Type} (ops : IBKROps α) (now : Int)
    (ticker start_date end_date data_type : String) : IBRun α :=
  if data_type = "news" then
    match parseDate start_date, parseDate end_date with
    | some sdt, some edt =>
      match get_news_articles ops now ((dateOrdinal edt : Int) - (dateOrdinal sdt : Int)) with
      | (.error e, calls) => ⟨.error e, calls⟩
      | (.ok arts, calls) =>
        ⟨.ok ((groupNews start_date end_date arts).map (fun p => (p.1, IBVal.news p.2))),
          calls⟩
    | _, _ => ⟨.error strptimeValueError, []⟩
  else if data_type = "historical" then
    match ops.historicalData with
    | .error e => ⟨.error e, []⟩
    | .ok rows =>
      if rows.isEmpty then ⟨.ok [], []⟩
      else ⟨.ok ((groupHist start_date end_date rows).map (fun p => (p.1, IBVal.row p.2))), []⟩
  else if data_type = "fundamentals" then
    match ops.fundamentals with
    | .error e => ⟨.error e, []⟩
    | .ok d => ⟨.ok (if d.isEmpty then [] else [(end_date, IBVal.dict d)]), []⟩
  else if data_type = "company_info" then
    match ops.companyInfo with
    | .error e => ⟨.error e, []⟩
    | .ok d => ⟨.ok (if d.isEmpty then [] else [(end_date, IBVal.dict d)]), []⟩
  else if data_type = "real_time" then
    match ops.realTime with
    | .error e => ⟨.error e, []⟩
    | .ok d => ⟨.ok (if d.isEmpty then [] else [(end_date, IBVal.dict d)]), []⟩
  else
    ⟨.ok [], []⟩

/-- State of one `IBKRConnection` object. -/
structure ConnState where
  connected : Bool
deriving DecidableEq

/-- The module-level globals: `_ibkr_connection` of ibkr_utils and
`_data_source_manager` of data_source_manager (the latter reduced to
whether it is set, the manager object holding no other state the cleanup
path touches). -/
structure GlobalState where
  ibkr_connection : Option ConnState
  data_source_manager : Bool
deriving DecidableEq

/-- `cleanup_ibkr_connection` (ibkr_utils lines 317–325): when a connection
object exists, disconnect it — swallowing any error — and unset the global;
when none exists, do nothing.  Never raises. -/
def cleanup_ibkr_connection (s : GlobalState) : GlobalState :=
  match s.ibkr_connection with
  | none => s
  | some _ => { s with ibkr_connection := none }

/-- `DataSourceManager.cleanup` (data_source_manager lines 126–131): call
`cleanup_ibkr_connection`, swallowing any error. -/
def manager_cleanup (s : GlobalState) : GlobalState :=
  cleanup_ibkr_connection s

/-- `cleanup_data_sources` (data_source_manager lines 185–190): when the
manager global is set, run its cleanup and unset the manager global; when
unset, do nothing.  Never raises. -/
def cleanup_data_sources (s : GlobalState) : GlobalState :=
  if s.data_source_manager then
    { manager_cleanup s with data_source_manager := false }
  else s

/-- The state before anything was created: both globals unset. -/
def initialGlobalState : GlobalState := ⟨none, false⟩

end TradingAgents

namespace TradingAgents

theorem addToGroup_keys {α : Type} (P : String → Prop)
    (acc : List (String × List (Article α))) (k : String) (a : Article α)
    (hacc : ∀ p ∈ acc, P p.1) (hk : P k) :
    ∀ p ∈ addToGroup acc k a, P p.1 := by
  intro p hp
  unfold addToGroup at hp
  by_cases hmem : acc.any (fun p => p.1 == k)
  · rw [if_pos hmem] at hp
    rcases List.mem_map.mp hp with ⟨q, hq, hpe⟩
    by_cases hqk : q.1 == k
    · rw [if_pos hqk] at hpe
      subst hpe
      exact hacc q hq
    · rw [if_neg hqk] at hpe
      subst hpe
      exact hacc q hq
  · rw [if_neg hmem] at hp
    rcases List.mem_append.mp hp with hin | hin
    · exact hacc p hin
    · rcases List.mem_singleton.mp hin with rfl
      exact hk

theorem charListLe_refl (l : List Char) : charListLe l l = true := by
  induction l with
  | nil => rfl
  | cons a as ih =>
    unfold charListLe
    rw [if_neg (Nat.lt_irrefl a.toNat), if_neg (Nat.lt_irrefl a.toNat)]
    exact ih

theorem pyStrLe_refl (s : String) : pyStrLe s s = true := charListLe_refl s.data

theorem groupNews_keys {α : Type} (sd ed : String) (arts : List (Article α)) :
    ∀ p ∈ groupNews sd ed arts, pyStrLe sd p.1 = true ∧ pyStrLe p.1 ed = true := by
  suffices h : ∀ (l : List (Article α)) (acc : List (String × List (Article α))),
      (∀ p ∈ acc, pyStrLe sd p.1 = true ∧ pyStrLe p.1 ed = true) →
      ∀ p ∈ l.foldl
        (fun acc a =>
          if pyStrLe sd a.dateStr && pyStrLe a.dateStr ed then addToGroup acc a.dateStr a
          else acc)
        acc, pyStrLe sd p.1 = true ∧ pyStrLe p.1 ed = true by
    exact h arts [] (by simp)
  intro l
  induction l with
  | nil => intro acc hacc p hp; exact hacc p hp
  | cons a rest ih =>
    intro acc hacc p hp
    simp only [List.foldl_cons] at hp
    by_cases hin : (pyStrLe sd a.dateStr && pyStrLe a.dateStr ed) = true
    · rw [if_pos hin] at hp
      rw [Bool.and_eq_true] at hin
      exact ih _ (addToGroup_keys (fun k => pyStrLe sd k = true ∧ pyStrLe k ed = true)
        acc a.dateStr a hacc ⟨hin.1, hin.2⟩) p hp
    · rw [if_neg hin] at hp
      exact ih _ hacc p hp

theorem histUpsert_keys {α : Type} (P : String → Prop)
    (acc : List (String × Article α)) (k : String) (r : Article α)
    (hacc : ∀ p ∈ acc, P p.1) (hk : P k) :
    ∀ p ∈ histUpsert acc k r, P p.1 := by
  intro p hp
  unfold histUpsert at hp
  by_cases hmem : acc.any (fun p => p.1 == k)
  · rw [if_pos hmem] at hp
    rcases List.mem_map.mp hp with ⟨q, hq, hpe⟩
    by_cases hqk : q.1 == k
    · rw [if_pos hqk] at hpe
      subst hpe
      exact hacc q hq
    · rw [if_neg hqk] at hpe
      subst hpe
      exact hacc q hq
  · rw [if_neg hmem] at hp
    rcases List.mem_append.mp hp with hin | hin
    · exact hacc p hin
    · rcases List.mem_singleton.mp hin with rfl
      exact hk

theorem groupHist_keys {α : Type} (sd ed : String) (rows : List (Article α)) :
    ∀ p ∈ groupHist sd ed rows, pyStrLe sd p.1 = true ∧ pyStrLe p.1 ed = true := by
  unfold groupHist
  suffices h : ∀ (l : List (Article α)),
      (∀ r ∈ l, pyStrLe sd r.dateStr = true ∧ pyStrLe r.dateStr ed = true) →
      ∀ (acc : List (String × Article α)),
        (∀ p ∈ acc, pyStrLe sd p.1 = true ∧ pyStrLe p.1 ed = true) →
      ∀ p ∈ l.foldl (fun acc r => histUpsert acc r.dateStr r) acc,
        pyStrLe sd p.1 = true ∧ pyStrLe p.1 ed = true by
    refine h _ ?_ [] (by simp)
    intro r hr
    have hb := (List.mem_filter.mp hr).2
    rw [Bool.and_eq_true] at hb
    exact hb
  intro l
  induction l with
  | nil => intro _ acc hacc p hp; exact hacc p hp
  | cons r rest ih =>
    intro hl acc hacc p hp
    simp only [List.foldl_cons] at hp
    refine ih (fun q hq => hl q (List.mem_cons_of_mem _ hq)) _ ?_ p hp
    exact histUpsert_keys (fun k => pyStrLe sd k = true ∧ pyStrLe k ed = true)
      acc r.dateStr r hacc (hl r (List.mem_cons_self _ _))

theorem get_news_articles_calls {α : Type} (ops : IBKROps α) (now db : Int) :
    ∀ c ∈ (get_news_articles ops now db).2,
      c.startDT = now - db ∧ c.endDT = now ∧ c.totalResults = 100 := by
  intro c hc
  unfold get_news_articles at hc
  split at hc
  · simp at hc
  · split at hc
    · simp at hc
    · simp at hc
    · split at hc
      · simp at hc
      · simp at hc
      · split at hc <;>
        · rcases List.mem_singleton.mp hc with rfl
          exact ⟨rfl, rfl, rfl⟩

end TradingAgents

namespace TradingAgents

/-- Concrete oracles for the witnesses below. -/
def opsW : IBKROps Nat where
  connected := true
  connectResult := .ok ()
  contractDetails := .ok [11]
  newsProviders := .ok ["BRFG"]
  historicalNews := fun _ => .ok [⟨"2024-01-02", 1⟩, ⟨"2023-12-30", 2⟩, ⟨"2024-01-02", 3⟩]
  historicalData := .ok [⟨"2024-01-02", 4⟩]
  fundamentals := .ok [("fundamentals", 5)]
  companyInfo := .ok []
  realTime := .ok [("last", 6)]

/-- C7: an unsupported data kind makes `get_ibkr_data_in_range` return the
empty dict without raising (and without touching the news client). -/
theorem unknown_data_type_returns_empty {α : Type} (ops : IBKROps α) (now : Int)
    (ticker sd ed dt : String)
    (h : dt ∉ (["news", "historical", "fundamentals", "company_info", "real_time"] :
      List String)) :
    get_ibkr_data_in_range ops now ticker sd ed dt = ⟨.ok [], []⟩ := by
  simp only [List.mem_cons, List.not_mem_nil, or_false, not_or] at h
  obtain ⟨h1, h2, h3, h4, h5⟩ := h
  simp [get_ibkr_data_in_range, h1, h2, h3, h4, h5]

theorem unknown_data_type_returns_empty_witness :
    ("quotes" ∉ (["news", "historical", "fundamentals", "company_info", "real_time"] :
      List String)) ∧
    get_ibkr_data_in_range opsW 0 "AAPL" "2024-01-01" "2024-01-05" "quotes" = ⟨.ok [], []⟩ :=
  ⟨by decide,
    unknown_data_type_returns_empty opsW 0 "AAPL" "2024-01-01" "2024-01-05" "quotes"
      (by decide)⟩

/-- C8: both cleanup hooks are no-ops on the state where nothing was ever
created, never raise (they are total functions of the state), are
idempotent, and leave their global handle unset. -/
theorem cleanup_hooks_idempotent :
    cleanup_ibkr_connection initialGlobalState = initialGlobalState ∧
    cleanup_data_sources initialGlobalState = initialGlobalState ∧
    (∀ s : GlobalState,
      cleanup_ibkr_connection (cleanup_ibkr_connection s) = cleanup_ibkr_connection s) ∧
    (∀ s : GlobalState,
      cleanup_data_sources (cleanup_data_sources s) = cleanup_data_sources s) ∧
    (∀ s : GlobalState, (cleanup_ibkr_connection s).ibkr_connection = none) ∧
    (∀ s : GlobalState, (cleanup_data_sources s).data_source_manager = false) := by
  refine ⟨rfl, rfl, ?_, ?_, ?_, ?_⟩
  · rintro ⟨oc, b⟩
    cases oc <;> simp [cleanup_ibkr_connection]
  · rintro ⟨oc, b⟩
    cases b <;> cases oc <;>
      simp [cleanup_data_sources, manager_cleanup, cleanup_ibkr_connection]
  · rintro ⟨oc, b⟩
    cases oc <;> simp [cleanup_ibkr_connection]
  · rintro ⟨oc, b⟩
    cases b <;> cases oc <;>
      simp [cleanup_data_sources, manager_cleanup, cleanup_ibkr_connection]

end TradingAgents

namespace TradingAgents

theorem dictWrap_keys {α : Type} (sd ed : String) (hle : pyStrLe sd ed = true)
    (d : Result α) (res : IBResult α)
    (hres : (if d.isEmpty then ([] : IBResult α) else [(ed, IBVal.dict d)]) = res) :
    (∀ p ∈ res, pyStrLe sd p.1 = true ∧ pyStrLe p.1 ed = true) ∧ (∀ p ∈ res, p.1 = ed) := by
  subst hres
  cases hd : d.isEmpty with
  | true =>
    constructor <;> intro p hp <;> rw [if_pos rfl] at hp <;> exact absurd hp (List.not_mem_nil p)
  | false =>
    constructor <;> intro p hp <;> rw [if_neg (by simp)] at hp <;>
      rw [List.mem_singleton] at hp <;> subst hp
    · exact ⟨hle, pyStrLe_refl ed⟩
    · rfl

/-- C9: with `start_date ≤ end_date` (as ISO date strings), every key of a
successfully returned dict lies in the inclusive range — news and
historical results are filtered to it, and the fundamentals, company-info
and real-time kinds key their dict by `end_date` alone. -/
theorem ibkr_result_keys_in_range {α : Type} (ops : IBKROps α) (now : Int)
    (ticker sd ed dt : String) (hle : pyStrLe sd ed = true) (res : IBResult α)
    (hres : (get_ibkr_data_in_range ops now ticker sd ed dt).result = .ok res) :
    (∀ p ∈ res, pyStrLe sd p.1 = true ∧ pyStrLe p.1 ed = true) ∧
    ((dt = "fundamentals" ∨ dt = "company_info" ∨ dt = "real_time") →
      ∀ p ∈ res, p.1 = ed) := by
  by_cases h1 : dt = "news"
  · subst h1
    refine ⟨?_, by rintro (h | h | h) <;> simp at h⟩
    unfold get_ibkr_data_in_range at hres
    rw [if_pos rfl] at hres
    rcases hsd : parseDate sd with _ | sdt <;> rcases hed : parseDate ed with _ | edt <;>
      rw [hsd, hed] at hres
    · simp at hres
    · simp at hres
    · simp at hres
    dsimp only at hres
    rcases hga : get_news_articles ops now ((dateOrdinal edt : Int) - (dateOrdinal sdt : Int))
      with ⟨gr, calls⟩
    rw [hga] at hres
    rcases gr with ge | arts
    · simp at hres
    · dsimp only at hres
      rw [Except.ok.injEq] at hres
      subst hres
      intro p hp
      rcases List.mem_map.mp hp with ⟨q, hq, rfl⟩
      exact groupNews_keys sd ed _ q hq
  · by_cases h2 : dt = "historical"
    · subst h2
      refine ⟨?_, by rintro (h | h | h) <;> simp at h⟩
      unfold get_ibkr_data_in_range at hres
      rw [if_neg (by decide), if_pos rfl] at hres
      rcases hhd : ops.historicalData with ge | rows <;> rw [hhd] at hres <;>
        dsimp only at hres
      · simp at hres
      cases hr : rows.isEmpty with
      | true =>
        rw [if_pos hr] at hres
        dsimp only at hres
        rw [Except.ok.injEq] at hres
        subst hres
        intro p hp
        exact absurd hp (List.not_mem_nil p)
      | false =>
        rw [if_neg (by simp [hr])] at hres
        dsimp only at hres
        rw [Except.ok.injEq] at hres
        subst hres
        intro p hp
        rcases List.mem_map.mp hp with ⟨q, hq, rfl⟩
        exact groupHist_keys sd ed _ q hq
    · by_cases h3 : dt = "fundamentals"
      · subst h3
        unfold get_ibkr_data_in_range at hres
        rw [if_neg (by decide), if_neg (by decide), if_pos rfl] at hres
        rcases hf : ops.fundamentals with ge | d <;> rw [hf] at hres
        · simp at hres
        · dsimp only at hres
          rw [Except.ok.injEq] at hres
          have hr := dictWrap_keys sd ed hle d res hres
          exact ⟨hr.1, fun _ => hr.2⟩
      · by_cases h4 : dt = "company_info"
        · subst h4
          unfold get_ibkr_data_in_range at hres
          rw [if_neg (by decide), if_neg (by decide), if_neg (by decide), if_pos rfl] at hres
          rcases hf : ops.companyInfo with ge | d <;> rw [hf] at hres
          · simp at hres
          · dsimp only at hres
            rw [Except.ok.injEq] at hres
            have hr := dictWrap_keys sd ed hle d res hres
            exact ⟨hr.1, fun _ => hr.2⟩
        · by_cases h5 : dt = "real_time"
          · subst h5
            unfold get_ibkr_data_in_range at hres
            rw [if_neg (by decide), if_neg (by decide), if_neg (by decide),
              if_neg (by decide), if_pos rfl] at hres
            rcases hf : ops.realTime with ge | d <;> rw [hf] at hres
            · simp at hres
            · dsimp only at hres
              rw [Except.ok.injEq] at hres
              have hr := dictWrap_keys sd ed hle d res hres
              exact ⟨hr.1, fun _ => hr.2⟩
          · unfold get_ibkr_data_in_range at hres
            rw [if_neg h1, if_neg h2, if_neg h3, if_neg h4, if_neg h5] at hres
            dsimp only at hres
            rw [Except.ok.injEq] at hres
            subst hres
            refine ⟨?_, ?_⟩
            · intro p hp
              exact absurd hp (List.not_mem_nil p)
            · rintro (h | h | h)
              · exact absurd h h3
              · exact absurd h h4
              · exact absurd h h5

end TradingAgents

namespace TradingAgents

theorem ibkr_result_keys_in_range_witness :
    pyStrLe "2024-01-01" "2024-01-05" = true ∧
    ((get_ibkr_data_in_range opsW 0 "AAPL" "2024-01-01" "2024-01-05" "news").result =
      Except.ok [("2024-01-02", IBVal.news [⟨"2024-01-02", 1⟩, ⟨"2024-01-02", 3⟩])]) ∧
    ((∀ p ∈ [("2024-01-02", IBVal.news [⟨"2024-01-02", (1 : Nat)⟩, ⟨"2024-01-02", 3⟩])],
        pyStrLe "2024-01-01" p.1 = true ∧ pyStrLe p.1 "2024-01-05" = true) ∧
      (("news" = "fundamentals" ∨ "news" = "company_info" ∨ "news" = "real_time") →
        ∀ p ∈ [("2024-01-02", IBVal.news [⟨"2024-01-02", (1 : Nat)⟩, ⟨"2024-01-02", 3⟩])],
          p.1 = "2024-01-05")) :=
  ⟨by decide, rfl,
    ibkr_result_keys_in_range opsW 0 "AAPL" "2024-01-01" "2024-01-05" "news" (by decide)
      _ rfl⟩

/-- C10: for the news kind, the count of days handed to the news fetch is
the calendar-day difference `end_date - start_date`, the window passed to
the historical-news client call is anchored at the current time — it is
`[now - days_back, now]` (with `totalResults = 100`) — and the requested
`[start_date, end_date]` range is applied only afterwards, as a filter on
every successfully returned mapping's keys. -/
theorem news_window_anchored_at_now {α : Type} (ops : IBKROps α) (now : Int)
    (ticker sd ed : String) (sdt edt : Nat × Nat × Nat)
    (hsd : parseDate sd = some sdt) (hed : parseDate ed = some edt) :
    (∀ c ∈ (get_ibkr_data_in_range ops now ticker sd ed "news").newsCalls,
      c.startDT = now - ((dateOrdinal edt : Int) - (dateOrdinal sdt : Int)) ∧
      c.endDT = now ∧ c.totalResults = 100) ∧
    (∀ res : IBResult α,
      (get_ibkr_data_in_range ops now ticker sd ed "news").result = .ok res →
      ∀ p ∈ res, pyStrLe sd p.1 = true ∧ pyStrLe p.1 ed = true) := by
  constructor
  · intro c hc
    unfold get_ibkr_data_in_range at hc
    rw [if_pos rfl, hsd, hed] at hc
    dsimp only at hc
    rcases hga : get_news_articles ops now ((dateOrdinal edt : Int) - (dateOrdinal sdt : Int))
      with ⟨gr, calls⟩
    rw [hga] at hc
    have hcalls :=
      get_news_articles_calls ops now ((dateOrdinal edt : Int) - (dateOrdinal sdt : Int))
    rw [hga] at hcalls
    rcases gr with ge | arts <;> dsimp only at hc <;> exact hcalls c hc
  · intro res hres
    unfold get_ibkr_data_in_range at hres
    rw [if_pos rfl, hsd, hed] at hres
    dsimp only at hres
    rcases hga : get_news_articles ops now ((dateOrdinal edt : Int) - (dateOrdinal sdt : Int))
      with ⟨gr, calls⟩
    rw [hga] at hres
    rcases gr with ge | arts
    · simp at hres
    · dsimp only at hres
      rw [Except.ok.injEq] at hres
      subst hres
      intro p hp
      rcases List.mem_map.mp hp with ⟨q, hq, rfl⟩
      exact groupNews_keys sd ed _ q hq

theorem news_window_anchored_at_now_witness :
    parseDate "2024-01-01" = some (2024, 1, 1) ∧
    parseDate "2024-01-05" = some (2024, 1, 5) ∧
    ((∀ c ∈ (get_ibkr_data_in_range opsW 0 "AAPL" "2024-01-01" "2024-01-05"
        "news").newsCalls,
        c.startDT = 0 - ((dateOrdinal (2024, 1, 5) : Int) - (dateOrdinal (2024, 1, 1) : Int)) ∧
        c.endDT = 0 ∧ c.totalResults = 100) ∧
      (∀ res : IBResult Nat,
        (get_ibkr_data_in_range opsW 0 "AAPL" "2024-01-01" "2024-01-05" "news").result =
          .ok res →
        ∀ p ∈ res, pyStrLe "2024-01-01" p.1 = true ∧ pyStrLe p.1 "2024-01-05" = true)) :=
  ⟨rfl, rfl,
    news_window_anchored_at_now opsW 0 "AAPL" "2024-01-01" "2024-01-05"
      (2024, 1, 1) (2024, 1, 5) rfl rfl⟩

end TradingAgents
